import Mathlib

/-!
Verification of the caching layer of pypiserver (`pypiserver/cache.py`).

The Python module is shallowly embedded: the mutable attributes of a
`CacheManager` instance become the fields of an explicit state record,
each method becomes a state-passing function, Python `dict`s become
association lists with dict semantics (lookup of first matching key,
assignment replacing in place, `pop` removing the key), Python exceptions
raised by caller-supplied producer functions become `Except` values, and
the watchdog observer is modelled by the list of `observer.schedule`
calls made so far.  Each operation additionally returns the log of
producer invocations it performed, so that claims of the form "the
producer is called exactly once / never" are expressible.
-/

/-- A Python value used as a key of `listdir_cache`.  The cache API accepts
`t.Union[Path, str]` roots, and the source sometimes keys the dict with the
raw argument: `pathlib.Path` objects and strings are distinct (unequal,
differently hashed) dict keys in Python, hence the two constructors. -/
inductive Key where
  | pstr (s : String)
  | ppath (s : String)
deriving DecidableEq, Repr

/-- A `root` argument of the cache API (`t.Union[Path, str]`).  A
`RootArg.path s` carries the (already normalised) string form of the Path. -/
inductive RootArg where
  | path (s : String)
  | str (s : String)
deriving DecidableEq, Repr

/-- Python `str(root)`: the string form of the argument. -/
def RootArg.toStr : RootArg → String
  | .path s => s
  | .str s => s

/-- The dict key denoted by the argument when it is used raw, without a
`str()` conversion (as `CacheFileManager.listdir` and
`force_update_listdir_cache` do). -/
def RootArg.rawKey : RootArg → Key
  | .path s => .ppath s
  | .str s => .pstr s

section Dict

variable {κ β : Type} [DecidableEq κ]

/-- Python `d.get(k)` / `d[k]` as an option: first entry with key `k`. -/
def dlookup (k : κ) : List (κ × β) → Option β
  | [] => none
  | (k1, v) :: rest => if k1 = k then some v else dlookup k rest

/-- Python `d[k] = v`: replace the value at `k` in place if present,
otherwise append the new entry (dicts preserve insertion order). -/
def dinsert (k : κ) (v : β) : List (κ × β) → List (κ × β)
  | [] => [(k, v)]
  | (k1, v1) :: rest => if k1 = k then (k, v) :: rest else (k1, v1) :: dinsert k v rest

/-- Python `d.pop(k, None)`: remove the entry at `k` if present. -/
def derase (k : κ) : List (κ × β) → List (κ × β)
  | [] => []
  | (k1, v1) :: rest => if k1 = k then derase k rest else (k1, v1) :: derase k rest

@[simp] theorem dlookup_nil (k : κ) : dlookup k ([] : List (κ × β)) = none := rfl

theorem dlookup_dinsert (k k1 : κ) (v : β) (m : List (κ × β)) :
    dlookup k1 (dinsert k v m) = if k1 = k then some v else dlookup k1 m := by
  induction m with
  | nil =>
    by_cases h : k1 = k
    · subst h; simp [dinsert, dlookup]
    · simp [dinsert, dlookup, h, mt Eq.symm h]
  | cons hd tl ih =>
    obtain ⟨k2, v2⟩ := hd
    by_cases h2 : k2 = k
    · subst h2
      by_cases h1 : k1 = k2
      · subst h1; simp [dinsert, dlookup]
      · simp [dinsert, dlookup, h1, mt Eq.symm h1]
    · by_cases h1 : k2 = k1
      · subst h1
        simp [dinsert, dlookup, h2, mt Eq.symm h2]
      · simp [dinsert, dlookup, h1, h2, ih]

theorem dlookup_derase (k k1 : κ) (m : List (κ × β)) :
    dlookup k1 (derase k m) = if k1 = k then none else dlookup k1 m := by
  induction m with
  | nil => simp [derase, dlookup]
  | cons hd tl ih =>
    obtain ⟨k2, v2⟩ := hd
    by_cases h2 : k2 = k
    · subst h2
      by_cases h1 : k1 = k2
      · subst h1; simp [derase, ih]
      · simp [derase, dlookup, ih, h1, mt Eq.symm h1]
    · by_cases h1 : k2 = k1
      · subst h1
        simp [derase, dlookup, h2, mt Eq.symm h2]
      · simp [derase, dlookup, h1, h2, ih]

end Dict

/-- `os.path.dirname` (posix): the part of `p` up to the final slash, with
trailing slashes stripped unless the head consists entirely of slashes. -/
def dirname (p : String) : String :=
  let cs := p.toList
  let i : Nat :=
    match cs.reverse.findIdx? (fun c => c == '/') with
    | none => 0
    | some j => cs.length - j
  let head := cs.take i
  if head.isEmpty || head.all (fun c => c == '/') then String.mk head
  else String.mk ((head.reverse.dropWhile (fun c => c == '/')).reverse)

/-- The mutable state of a `CacheManager` instance:
`listdir_cache` (root key → listing), `digest_cache` (hash algorithm →
(file path → digest)), `watched` (the set of watched root directories,
as a duplicate-free list), and `subscriptions`, the log of
`observer.schedule(handler, root, ...)` calls made so far (one entry per
call, in order), modelling the watchdog observer's subscriptions.
Listing entries are of an abstract type `α` (`PkgFile` is opaque here). -/
structure CacheState (α : Type) where
  listdir_cache : List (Key × List α)
  digest_cache : List (String × List (String × String))
  watched : List String
  subscriptions : List String
deriving DecidableEq, Repr

/-- Python `set.add`: insert if absent (idempotent). -/
def setAdd (r : String) (s : List String) : List String :=
  if r ∈ s then s else r :: s

/-- `CacheManager.__init__`: fails with `RuntimeError` when caching support
(the watchdog event source) is unavailable, otherwise starts the observer
and yields empty caches and an empty watched set. -/
def CacheManager.init (α : Type) (enable_caching : Bool) : Except String (CacheState α) :=
  if enable_caching then
    Except.ok { listdir_cache := [], digest_cache := [], watched := [], subscriptions := [] }
  else
    Except.error "Please install the extra cache requirements by running pip install pypiserver[cache] to use the CachingFileBackend"

/-- `CacheManager._watch`: add `root` to the watched set and schedule a
new observer subscription for it. -/
def CacheManager._watch {α : Type} (st : CacheState α) (root : String) : CacheState α :=
  { st with
    watched := setAdd root st.watched
    subscriptions := st.subscriptions ++ [root] }

/-- `CacheManager.listdir(root, impl_fn)`.  Returns the call's result (the
producer's exception propagating as `Except.error`), the state after the
call, and the log of producer invocations made (by argument). -/
def CacheManager.listdir {α : Type} (st : CacheState α) (root : RootArg)
    (impl_fn : String → Except String (List α)) :
    Except String (List α) × CacheState α × List String :=
  let rootS := root.toStr
  match dlookup (Key.pstr rootS) st.listdir_cache with
  | some v => (Except.ok v, st, [])
  | none =>
    let st1 := if rootS ∈ st.watched then st else CacheManager._watch st rootS
    match impl_fn rootS with
    | Except.error e => (Except.error e, st1, [rootS])
    | Except.ok l =>
      (Except.ok l,
       { st1 with listdir_cache := dinsert (Key.pstr rootS) l st1.listdir_cache },
       [rootS])

/-- `CacheManager.digest_file(fpath, hash_algo, impl_fn)`.  The
`digest_cache.setdefault(hash_algo, \x7b\x7d)` step materialises an empty
inner mapping for a previously unseen algorithm before the cached-path
check.  The producer-invocation log records `(fpath, hash_algo)` pairs. -/
def CacheManager.digest_file {α : Type} (st : CacheState α) (fpath hash_algo : String)
    (impl_fn : String → String → Except String String) :
    Except String String × CacheState α × List (String × String) :=
  let cache := (dlookup hash_algo st.digest_cache).getD []
  let st0 :=
    if (dlookup hash_algo st.digest_cache).isSome then st
    else { st with digest_cache := dinsert hash_algo [] st.digest_cache }
  match dlookup fpath cache with
  | some v => (Except.ok v, st0, [])
  | none =>
    let root := dirname fpath
    let st1 := if root ∈ st0.watched then st0 else CacheManager._watch st0 root
    match impl_fn fpath hash_algo with
    | Except.error e => (Except.error e, st1, [(fpath, hash_algo)])
    | Except.ok v =>
      (Except.ok v,
       { st1 with digest_cache := dinsert hash_algo (dinsert fpath v cache) st1.digest_cache },
       [(fpath, hash_algo)])

/-- `CacheManager.invalidate_root_cache(root)`: drop the listing entry at
the canonical string key `str(root)`. -/
def CacheManager.invalidate_root_cache {α : Type} (st : CacheState α) (root : RootArg) :
    CacheState α :=
  { st with listdir_cache := derase (Key.pstr root.toStr) st.listdir_cache }

/-- A watchdog filesystem event as seen by `_EventHandler.dispatch`:
directory flag, event type string, source path and (for moves)
destination path. -/
structure Event where
  is_directory : Bool
  event_type : String
  src_path : String
  dest_path : String
deriving DecidableEq, Repr

/-- `_EventHandler.dispatch(event)` for the handler registered on `root`:
ignore directory events; otherwise invalidate the whole listing entry of
`root` and pop the affected path(s) from every algorithm's inner digest
mapping (both source and destination paths for a move event). -/
def EventHandler.dispatch {α : Type} (st : CacheState α) (root : String) (event : Event) :
    CacheState α :=
  if event.is_directory then st
  else
    let st1 := CacheManager.invalidate_root_cache st (RootArg.str root)
    let paths :=
      if event.event_type = "moved" then [event.src_path, event.dest_path]
      else [event.src_path]
    { st1 with
      digest_cache :=
        st1.digest_cache.map (fun as => (as.1, paths.foldl (fun sub p => derase p sub) as.2)) }

/-- The on-disk package index file a `CacheFileManager` is pointed at:
absent, present but failing to open or unpickle, or present with a pickled
`listdir_cache` mapping. -/
inductive SnapshotFile (α : Type) where
  | absent
  | corrupt
  | content (m : List (Key × List α))

/-- The state of a `CacheFileManager`: the inherited `CacheManager` state
plus the `pkg_index_file` and `using_index_file` attributes. -/
structure FileCacheState (α : Type) extends CacheState α where
  pkg_index_file : Option String
  using_index_file : Bool
deriving DecidableEq, Repr

/-- `CacheFileManager.__init__(pkg_index_file)`: run the parent
constructor, then best-effort load of the pickled index.  On a missing
argument, a missing file, or any load failure the manager stays in live
mode with the empty cache; on success the loaded mapping becomes the
listing cache and frozen mode (`using_index_file`) is entered.  `fs` maps
a path to what reading that snapshot file yields. -/
def CacheFileManager.init (α : Type) (enable_caching : Bool)
    (pkg_index_file : Option String) (fs : String → SnapshotFile α) :
    Except String (FileCacheState α) :=
  match CacheManager.init α enable_caching with
  | Except.error e => Except.error e
  | Except.ok base =>
    let st0 : FileCacheState α :=
      { toCacheState := base, pkg_index_file := none, using_index_file := false }
    match pkg_index_file with
    | none => Except.ok st0
    | some p =>
      match fs p with
      | SnapshotFile.absent => Except.ok st0
      | SnapshotFile.corrupt => Except.ok st0
      | SnapshotFile.content m =>
        Except.ok { st0 with listdir_cache := m, pkg_index_file := some p, using_index_file := true }

/-- `CacheFileManager.listdir`: in live mode defer to the parent
implementation; in frozen mode `listdir_cache.get(root, \x7b\x7d)` — a raw-key
lookup whose default, the empty dict, is the empty iterable of entries. -/
def CacheFileManager.listdir {α : Type} (st : FileCacheState α) (root : RootArg)
    (impl_fn : String → Except String (List α)) :
    Except String (List α) × FileCacheState α × List String :=
  if st.using_index_file = false then
    let r := CacheManager.listdir st.toCacheState root impl_fn
    (r.1, { st with toCacheState := r.2.1 }, r.2.2)
  else
    (Except.ok ((dlookup root.rawKey st.listdir_cache).getD []), st, [])

/-- `CacheFileManager.force_update_listdir_cache(root, impl_fn)`:
unconditionally run the producer and store the result under the raw
`root` key. -/
def CacheFileManager.force_update_listdir_cache {α : Type} (st : FileCacheState α)
    (root : RootArg) (impl_fn : String → Except String (List α)) :
    Except String (List α) × FileCacheState α × List String :=
  match impl_fn root.toStr with
  | Except.error e => (Except.error e, st, [root.toStr])
  | Except.ok l =>
    (Except.ok l,
     { st with listdir_cache := dinsert root.rawKey l st.listdir_cache },
     [root.toStr])

/-- `CacheFileManager.serialize_listdir_cache()`: the mapping pickled to
`pkg_index_file` (file I/O is modelled by returning the written
content; unpickling what was pickled yields the same mapping). -/
def CacheFileManager.serialize_listdir_cache {α : Type} (st : FileCacheState α) :
    List (Key × List α) :=
  st.listdir_cache

/-- The invariant of the watch subsystem: the watched set and the multiset
of scheduled subscriptions are duplicate-free and contain the same roots —
each watched root has exactly one subscription. -/
def WatchInv {α : Type} (st : CacheState α) : Prop :=
  st.watched.Nodup ∧ st.subscriptions.Nodup
  ∧ (∀ r ∈ st.watched, r ∈ st.subscriptions)
  ∧ (∀ r ∈ st.subscriptions, r ∈ st.watched)

/-- A frozen-mode `CacheFileManager` state holding a loaded snapshot with
one root, used to exercise the frozen `listdir` contract. -/
def frozenW : FileCacheState Nat :=
  { listdir_cache := [(Key.pstr "/repo/pkgs", [1, 2])], digest_cache := [],
    watched := [], subscriptions := [],
    pkg_index_file := some "/idx", using_index_file := true }

/-- An empty live-mode `CacheFileManager` state. -/
def emptyFileW : FileCacheState Nat :=
  { listdir_cache := [], digest_cache := [], watched := [], subscriptions := [],
    pkg_index_file := none, using_index_file := false }

/-- An empty live-mode `CacheManager` state. -/
def emptyW : CacheState Nat :=
  { listdir_cache := [], digest_cache := [], watched := [], subscriptions := [] }

/-- A live state with one cached listing and two cached digests, used to
exercise event dispatch. -/
def dispatchW : CacheState Nat :=
  { listdir_cache := [(Key.pstr "/r", [5])],
    digest_cache := [("md5", [("/r/x.whl", "h1"), ("/r/y.whl", "h2")])],
    watched := ["/r"], subscriptions := ["/r"] }

/-- Claim C1: on a snapshot-manager in frozen mode, `listdir` returns the
entry stored in the loaded snapshot mapping for `root` (the empty sequence
when `root` is absent), never invokes the producer (empty invocation log),
and leaves the whole state — in particular the watched set and the
subscription log — unchanged. -/
theorem frozen_listdir_serves_snapshot {α : Type} (st : FileCacheState α)
    (h : st.using_index_file = true) (root : RootArg)
    (impl_fn : String → Except String (List α)) :
    CacheFileManager.listdir st root impl_fn =
      (Except.ok ((dlookup root.rawKey st.listdir_cache).getD []), st, []) := by
  simp [CacheFileManager.listdir, h]

theorem frozen_listdir_serves_snapshot_witness :
    CacheFileManager.listdir frozenW (RootArg.str "/repo/other")
        (fun _ => Except.error "producer must not run") =
      (Except.ok [], frozenW, []) :=
  (frozen_listdir_serves_snapshot frozenW rfl (RootArg.str "/repo/other")
    (fun _ => Except.error "producer must not run")).trans rfl

/-- Claim C2 counterexample: `force_update_listdir_cache` keys the listing
cache by the raw `Path` argument rather than by its canonical string form,
so the same directory maps to different keys depending on the operation:
after a forced update at `Path("/repo")`, the canonical string key for
`/repo` is still absent from the cache. -/
theorem force_update_raw_key_counterexample :
    (CacheFileManager.force_update_listdir_cache emptyFileW (RootArg.path "/repo")
        (fun _ => Except.ok [1])).2.1.listdir_cache = [(Key.ppath "/repo", [1])]
    ∧ Key.ppath "/repo" ≠ Key.pstr "/repo"
    ∧ dlookup (Key.pstr "/repo")
        (CacheFileManager.force_update_listdir_cache emptyFileW (RootArg.path "/repo")
          (fun _ => Except.ok [1])).2.1.listdir_cache = none := by
  decide

/-- Claim C2 (amended): live `listdir` and `invalidate_root_cache` convert
their `root` argument to the canonical string form before using it as a
key, so a `Path` root and its string form are interchangeable for them;
`force_update_listdir_cache` and frozen-mode `listdir`, however, key by
the raw argument, and all four operations agree on the key exactly when
roots are passed as strings (the key then being that string). -/
theorem cache_key_canonicalization_amended {α : Type} (st : CacheState α)
    (stf : FileCacheState α) (s : String) (l : List α)
    (impl_fn : String → Except String (List α)) :
    CacheManager.listdir st (RootArg.path s) impl_fn =
      CacheManager.listdir st (RootArg.str s) impl_fn
    ∧ CacheManager.invalidate_root_cache st (RootArg.path s) =
        CacheManager.invalidate_root_cache st (RootArg.str s)
    ∧ (CacheFileManager.force_update_listdir_cache stf (RootArg.str s)
         (fun _ => Except.ok l)).2.1.listdir_cache = dinsert (Key.pstr s) l stf.listdir_cache
    ∧ (CacheFileManager.listdir { stf with using_index_file := true }
         (RootArg.str s) impl_fn).1 =
        Except.ok ((dlookup (Key.pstr s) stf.listdir_cache).getD []) := by
  refine ⟨rfl, rfl, rfl, ?_⟩
  simp [CacheFileManager.listdir, RootArg.rawKey]

/-- Claim C3 counterexample: a failing digest producer for a
previously-unseen hash algorithm does not leave the digest-cache map
exactly as it was — `setdefault` has already materialised an empty inner
mapping for that algorithm before the producer ran. -/
theorem digest_error_extends_digest_cache_counterexample :
    emptyW.digest_cache = []
    ∧ (CacheManager.digest_file emptyW "/repo/a.whl" "sha256"
        (fun _ _ => Except.error "disk error")).1 = Except.error "disk error"
    ∧ (CacheManager.digest_file emptyW "/repo/a.whl" "sha256"
        (fun _ _ => Except.error "disk error")).2.1.digest_cache = [("sha256", [])]
    ∧ [(("sha256" : String), ([] : List (String × String)))] ≠ [] := by
  refine ⟨rfl, rfl, rfl, by decide⟩

/-- Claim C3 (amended): a producer error on a cache miss propagates to the
caller uncached.  For `listdir`, both cache maps are exactly as before.
For `digest_file`, the listing cache is exactly as before and no digest
value is stored — every (algorithm, path) digest lookup yields what it did
before — but when the algorithm was previously unseen, the digest-cache
map additionally carries the empty inner mapping `setdefault` created for
it before the producer ran. -/
theorem producer_error_leaves_cache_values_unchanged {α : Type} (st : CacheState α)
    (root : RootArg) (impl_fn : String → Except String (List α))
    (g : String → String → Except String String) (fpath hash_algo e1 e2 : String) :
    (dlookup (Key.pstr root.toStr) st.listdir_cache = none →
     impl_fn root.toStr = Except.error e1 →
     (CacheManager.listdir st root impl_fn).1 = Except.error e1
     ∧ (CacheManager.listdir st root impl_fn).2.1.listdir_cache = st.listdir_cache
     ∧ (CacheManager.listdir st root impl_fn).2.1.digest_cache = st.digest_cache)
    ∧ (dlookup fpath ((dlookup hash_algo st.digest_cache).getD []) = none →
       g fpath hash_algo = Except.error e2 →
       (CacheManager.digest_file st fpath hash_algo g).1 = Except.error e2
       ∧ (CacheManager.digest_file st fpath hash_algo g).2.1.listdir_cache = st.listdir_cache
       ∧ (CacheManager.digest_file st fpath hash_algo g).2.1.digest_cache =
           (if (dlookup hash_algo st.digest_cache).isSome then st.digest_cache
            else dinsert hash_algo [] st.digest_cache)
       ∧ ∀ a p,
           dlookup p
             ((dlookup a (CacheManager.digest_file st fpath hash_algo g).2.1.digest_cache).getD [])
             = dlookup p ((dlookup a st.digest_cache).getD [])) := by
  constructor
  · intro hmiss herr
    by_cases hw : root.toStr ∈ st.watched <;>
      simp [CacheManager.listdir, hmiss, herr, hw, CacheManager._watch]
  · intro hmiss herr
    have hstate :
        (CacheManager.digest_file st fpath hash_algo g).2.1.digest_cache =
          (if (dlookup hash_algo st.digest_cache).isSome then st.digest_cache
           else dinsert hash_algo [] st.digest_cache)
        ∧ (CacheManager.digest_file st fpath hash_algo g).1 = Except.error e2
        ∧ (CacheManager.digest_file st fpath hash_algo g).2.1.listdir_cache =
            st.listdir_cache := by
      rcases hsd : dlookup hash_algo st.digest_cache with _ | inner <;>
        by_cases hw : dirname fpath ∈ st.watched <;>
        · have hmiss2 := hmiss
          rw [hsd] at hmiss2
          simp only [Option.getD] at hmiss2 ⊢
          simp [CacheManager.digest_file, hsd, hmiss2, herr, hw, CacheManager._watch]
    refine ⟨hstate.2.1, hstate.2.2, hstate.1, ?_⟩
    intro a p
    rw [hstate.1]
    by_cases hsome : (dlookup hash_algo st.digest_cache).isSome
    · simp [hsome]
    · have hsd : dlookup hash_algo st.digest_cache = none := by
        cases hx : dlookup hash_algo st.digest_cache
        · rfl
        · rw [hx] at hsome; simp at hsome
      rw [if_neg hsome, dlookup_dinsert]
      by_cases ha : a = hash_algo
      · subst ha; simp [hsd]
      · simp [ha]

theorem producer_error_leaves_cache_values_unchanged_witness :
    ((CacheManager.listdir emptyW (RootArg.str "/r") (fun _ => Except.error "e1")).1 =
        Except.error "e1"
      ∧ (CacheManager.listdir emptyW (RootArg.str "/r")
          (fun _ => Except.error "e1")).2.1.listdir_cache = emptyW.listdir_cache
      ∧ (CacheManager.listdir emptyW (RootArg.str "/r")
          (fun _ => Except.error "e1")).2.1.digest_cache = emptyW.digest_cache)
    ∧ ((CacheManager.digest_file emptyW "/r/f.whl" "md5"
          (fun _ _ => Except.error "e2")).1 = Except.error "e2"
       ∧ dlookup "/r/f.whl"
           ((dlookup "md5"
              (CacheManager.digest_file emptyW "/r/f.whl" "md5"
                (fun _ _ => Except.error "e2")).2.1.digest_cache).getD [])
           = dlookup "/r/f.whl" ((dlookup "md5" emptyW.digest_cache).getD [])) := by
  have h := producer_error_leaves_cache_values_unchanged emptyW (RootArg.str "/r")
    (fun _ => Except.error "e1") (fun _ _ => Except.error "e2") "/r/f.whl" "md5" "e1" "e2"
  have h1 := h.1 rfl rfl
  have h2 := h.2 rfl rfl
  exact ⟨⟨h1.1, h1.2.1, h1.2.2⟩, ⟨h2.1, h2.2.2.2 "md5" "/r/f.whl"⟩⟩

/-- Claim C4: in live mode, `listdir` on a cached root returns the cached
value, leaves the state untouched and never invokes the producer; on a
root not present in the cache it invokes the producer exactly once on
that root, stores the result under the root's canonical key, ensures the
root is watched, and returns the producer's result. -/
theorem live_listdir_spec {α : Type} (st : CacheState α) (root : RootArg) (v l : List α)
    (impl_fn : String → Except String (List α)) :
    (dlookup (Key.pstr root.toStr) st.listdir_cache = some v →
      CacheManager.listdir st root impl_fn = (Except.ok v, st, []))
    ∧ (dlookup (Key.pstr root.toStr) st.listdir_cache = none →
       impl_fn root.toStr = Except.ok l →
       (CacheManager.listdir st root impl_fn).1 = Except.ok l
       ∧ (CacheManager.listdir st root impl_fn).2.2 = [root.toStr]
       ∧ dlookup (Key.pstr root.toStr)
           (CacheManager.listdir st root impl_fn).2.1.listdir_cache = some l
       ∧ root.toStr ∈ (CacheManager.listdir st root impl_fn).2.1.watched) := by
  constructor
  · intro hhit
    simp [CacheManager.listdir, hhit]
  · intro hmiss hok
    by_cases hw : root.toStr ∈ st.watched <;>
      simp [CacheManager.listdir, hmiss, hok, hw, dlookup_dinsert,
        CacheManager._watch, setAdd]

theorem live_listdir_spec_witness :
    (CacheManager.listdir emptyW (RootArg.str "/repo")
        (fun _ => Except.ok [3, 4])).1 = Except.ok [3, 4]
    ∧ (CacheManager.listdir emptyW (RootArg.str "/repo")
        (fun _ => Except.ok [3, 4])).2.2 = ["/repo"]
    ∧ dlookup (Key.pstr "/repo")
        (CacheManager.listdir emptyW (RootArg.str "/repo")
          (fun _ => Except.ok [3, 4])).2.1.listdir_cache = some [3, 4]
    ∧ "/repo" ∈ (CacheManager.listdir emptyW (RootArg.str "/repo")
        (fun _ => Except.ok [3, 4])).2.1.watched :=
  (live_listdir_spec emptyW (RootArg.str "/repo") [] [3, 4]
    (fun _ => Except.ok [3, 4])).2 rfl rfl

theorem dlookup_map_value {κ β : Type} [DecidableEq κ] (f : β → β)
    (a : κ) (m : List (κ × β)) :
    dlookup a (m.map (fun as => (as.1, f as.2))) = (dlookup a m).map f := by
  induction m with
  | nil => rfl
  | cons hd tl ih =>
    obtain ⟨k1, v1⟩ := hd
    by_cases h : k1 = a <;> simp [dlookup, h, ih]

theorem dlookup_prune (paths : List String) (a : String)
    (m : List (String × List (String × String))) :
    dlookup a (m.map (fun as => (as.1, paths.foldl (fun sub p => derase p sub) as.2))) =
      (dlookup a m).map (fun sub => paths.foldl (fun s q => derase q s) sub) := by
  induction m with
  | nil => rfl
  | cons hd tl ih =>
    obtain ⟨k1, v1⟩ := hd
    by_cases h : k1 = a <;> simp [dlookup, h, ih]

theorem dlookup_foldl_derase {β : Type} (paths : List String) (p : String)
    (sub : List (String × β)) :
    dlookup p (paths.foldl (fun s q => derase q s) sub) =
      if p ∈ paths then none else dlookup p sub := by
  induction paths generalizing sub with
  | nil => simp
  | cons q rest ih =>
    rw [List.foldl_cons, ih]
    by_cases hq : p = q
    · subst hq
      simp [dlookup_derase]
    · by_cases hr : p ∈ rest <;> simp [hr, hq, dlookup_derase]

/-- Claim C5: dispatching a filesystem event on the handler of a watched
root leaves both caches untouched for a directory event; for any other
event it removes the entire listing entry of that root (leaving other
roots' listings intact) and prunes the digest cache precisely — exactly
the affected path for a plain event, and exactly the source and
destination paths for a move event, removed from every algorithm's inner
mapping, with all other paths' digests intact. -/
theorem dispatch_spec {α : Type} (st : CacheState α) (root : String) (event : Event) :
    (event.is_directory = true → EventHandler.dispatch st root event = st)
    ∧ (event.is_directory = false →
       dlookup (Key.pstr root) (EventHandler.dispatch st root event).listdir_cache = none
       ∧ (∀ k, k ≠ Key.pstr root →
            dlookup k (EventHandler.dispatch st root event).listdir_cache =
              dlookup k st.listdir_cache)
       ∧ (∀ a p,
            dlookup p ((dlookup a (EventHandler.dispatch st root event).digest_cache).getD []) =
              if p ∈ (if event.event_type = "moved" then [event.src_path, event.dest_path]
                      else [event.src_path])
              then none
              else dlookup p ((dlookup a st.digest_cache).getD []))) := by
  constructor
  · intro hdir
    simp [EventHandler.dispatch, hdir]
  · intro hfile
    refine ⟨?_, ?_, ?_⟩
    · simp [EventHandler.dispatch, hfile, CacheManager.invalidate_root_cache,
        RootArg.toStr, dlookup_map_value, dlookup_derase]
    · intro k hk
      simp [EventHandler.dispatch, hfile, CacheManager.invalidate_root_cache,
        RootArg.toStr, dlookup_map_value, dlookup_derase, hk]
    · intro a p
      simp only [EventHandler.dispatch, hfile, Bool.false_eq_true, if_false,
        CacheManager.invalidate_root_cache, dlookup_prune]
      rcases hsd : dlookup a st.digest_cache with _ | inner
      · simp [hsd]
      · simp [hsd, dlookup_foldl_derase]

theorem dispatch_spec_witness :
    (EventHandler.dispatch dispatchW "/r"
        { is_directory := true, event_type := "modified",
          src_path := "/r/x.whl", dest_path := "" } = dispatchW)
    ∧ dlookup (Key.pstr "/r")
        (EventHandler.dispatch dispatchW "/r"
          { is_directory := false, event_type := "moved",
            src_path := "/r/x.whl", dest_path := "/r/z.whl" }).listdir_cache = none
    ∧ dlookup "/r/y.whl"
        ((dlookup "md5"
           (EventHandler.dispatch dispatchW "/r"
             { is_directory := false, event_type := "moved",
               src_path := "/r/x.whl", dest_path := "/r/z.whl" }).digest_cache).getD [])
        = dlookup "/r/y.whl" ((dlookup "md5" dispatchW.digest_cache).getD []) := by
  refine ⟨(dispatch_spec dispatchW "/r"
      { is_directory := true, event_type := "modified",
        src_path := "/r/x.whl", dest_path := "" }).1 rfl,
    ((dispatch_spec dispatchW "/r"
      { is_directory := false, event_type := "moved",
        src_path := "/r/x.whl", dest_path := "/r/z.whl" }).2 rfl).1,
    (((dispatch_spec dispatchW "/r"
      { is_directory := false, event_type := "moved",
        src_path := "/r/x.whl", dest_path := "/r/z.whl" }).2 rfl).2.2
        "md5" "/r/y.whl").trans (by decide)⟩

/-- Claim C6: serializing the listing cache of any snapshot-manager state
to its index file and constructing a fresh snapshot-manager that loads
that file yields an identical root-to-entries mapping, puts the fresh
manager in frozen mode, and makes its `listdir` invoke no producer on any
input (empty invocation log). -/
theorem snapshot_round_trip {α : Type} (st : FileCacheState α) (p : String)
    (fresh : FileCacheState α) :
    CacheFileManager.init α true (some p)
        (fun q =>
          if q = p then SnapshotFile.content (CacheFileManager.serialize_listdir_cache st)
          else SnapshotFile.absent) = Except.ok fresh →
    fresh.listdir_cache = st.listdir_cache
    ∧ fresh.using_index_file = true
    ∧ ∀ (root : RootArg) (impl_fn : String → Except String (List α)),
        (CacheFileManager.listdir fresh root impl_fn).2.2 = [] := by
  intro h
  simp only [CacheFileManager.init, CacheManager.init, if_pos trivial, if_true,
    CacheFileManager.serialize_listdir_cache, Except.ok.injEq] at h
  subst h
  refine ⟨rfl, rfl, ?_⟩
  intro root impl_fn
  simp [CacheFileManager.listdir]

theorem snapshot_round_trip_witness :
    ∃ fresh : FileCacheState Nat,
      CacheFileManager.init Nat true (some "/idx")
          (fun q =>
            if q = "/idx" then
              SnapshotFile.content (CacheFileManager.serialize_listdir_cache frozenW)
            else SnapshotFile.absent) = Except.ok fresh
      ∧ fresh.listdir_cache = frozenW.listdir_cache
      ∧ fresh.using_index_file = true
      ∧ (CacheFileManager.listdir fresh (RootArg.str "/repo/pkgs")
          (fun _ => Except.error "producer must not run")).2.2 = [] := by
  refine ⟨_, rfl, ?_⟩
  have h := snapshot_round_trip frozenW "/idx" _ rfl
  exact ⟨h.1, h.2.1, h.2.2 (RootArg.str "/repo/pkgs") (fun _ => Except.error "producer must not run")⟩

/-- Claim C7: snapshot-manager construction never fails because of the
snapshot file — with no file configured, with the file absent, or with a
file that cannot be read or deserialized, construction completes
successfully with an empty listing cache in live mode (frozen mode not
entered) and no load error surfaced. -/
theorem snapshot_load_failure_falls_back_live (α : Type)
    (pkg_index_file : Option String) (fs : String → SnapshotFile α) :
    (pkg_index_file = none
      ∨ ∃ p, pkg_index_file = some p
          ∧ (fs p = SnapshotFile.absent ∨ fs p = SnapshotFile.corrupt)) →
    CacheFileManager.init α true pkg_index_file fs =
      Except.ok { listdir_cache := [], digest_cache := [], watched := [],
                  subscriptions := [], pkg_index_file := none,
                  using_index_file := false } := by
  rintro (h | ⟨p, hp, hfs | hfs⟩)
  · subst h; simp [CacheFileManager.init, CacheManager.init]
  · subst hp; simp [CacheFileManager.init, CacheManager.init, hfs]
  · subst hp; simp [CacheFileManager.init, CacheManager.init, hfs]

theorem snapshot_load_failure_falls_back_live_witness :
    CacheFileManager.init Nat true (some "/idx") (fun _ => SnapshotFile.corrupt) =
      Except.ok { listdir_cache := [], digest_cache := [], watched := [],
                  subscriptions := [], pkg_index_file := none,
                  using_index_file := false } :=
  snapshot_load_failure_falls_back_live Nat (some "/idx") (fun _ => SnapshotFile.corrupt)
    (Or.inr ⟨"/idx", rfl, Or.inr rfl⟩)

theorem listdir_watch_cases {α : Type} (st : CacheState α) (root : RootArg)
    (impl_fn : String → Except String (List α)) :
    ((CacheManager.listdir st root impl_fn).2.1.watched = st.watched
      ∧ (CacheManager.listdir st root impl_fn).2.1.subscriptions = st.subscriptions)
    ∨ (root.toStr ∉ st.watched
      ∧ (CacheManager.listdir st root impl_fn).2.1.watched = setAdd root.toStr st.watched
      ∧ (CacheManager.listdir st root impl_fn).2.1.subscriptions =
          st.subscriptions ++ [root.toStr]) := by
  rcases hc : dlookup (Key.pstr root.toStr) st.listdir_cache with _ | v <;>
    by_cases hw2 : root.toStr ∈ st.watched <;>
    rcases he : impl_fn root.toStr with e | l <;>
    simp [CacheManager.listdir, hc, hw2, he, CacheManager._watch, setAdd]

theorem digest_file_watch_cases {α : Type} (st : CacheState α) (fpath hash_algo : String)
    (g : String → String → Except String String) :
    ((CacheManager.digest_file st fpath hash_algo g).2.1.watched = st.watched
      ∧ (CacheManager.digest_file st fpath hash_algo g).2.1.subscriptions = st.subscriptions)
    ∨ (dirname fpath ∉ st.watched
      ∧ (CacheManager.digest_file st fpath hash_algo g).2.1.watched =
          setAdd (dirname fpath) st.watched
      ∧ (CacheManager.digest_file st fpath hash_algo g).2.1.subscriptions =
          st.subscriptions ++ [dirname fpath]) := by
  by_cases hsome : (dlookup hash_algo st.digest_cache).isSome <;>
    rcases hfp : dlookup fpath ((dlookup hash_algo st.digest_cache).getD []) with _ | v <;>
    by_cases hw2 : dirname fpath ∈ st.watched <;>
    rcases he : g fpath hash_algo with e | dg <;>
    simp [CacheManager.digest_file, hsome, hfp, hw2, he, CacheManager._watch, setAdd]

theorem WatchInv_keep {α : Type} {st st2 : CacheState α} (h : WatchInv st)
    (hw : st2.watched = st.watched) (hs : st2.subscriptions = st.subscriptions) :
    WatchInv st2 ∧ st.watched ⊆ st2.watched ∧ st.subscriptions ⊆ st2.subscriptions := by
  simp only [WatchInv, hw, hs]
  exact ⟨⟨h.1, h.2.1, h.2.2.1, h.2.2.2⟩, fun x hx => hx, fun x hx => hx⟩

theorem WatchInv_extend {α : Type} {st st2 : CacheState α} (h : WatchInv st) (r : String)
    (hr : r ∉ st.watched) (hw : st2.watched = setAdd r st.watched)
    (hs : st2.subscriptions = st.subscriptions ++ [r]) :
    WatchInv st2 ∧ st.watched ⊆ st2.watched ∧ st.subscriptions ⊆ st2.subscriptions := by
  obtain ⟨h1, h2, h3, h4⟩ := h
  have hrs : r ∉ st.subscriptions := fun hx => hr (h4 r hx)
  simp only [WatchInv, hw, hs, setAdd, if_neg hr]
  refine ⟨⟨List.nodup_cons.mpr ⟨hr, h1⟩, ?_, ?_, ?_⟩, ?_, ?_⟩
  · exact List.nodup_append.mpr ⟨h2, List.nodup_singleton r,
      fun a ha hb => by simp at hb; subst hb; exact hrs ha⟩
  · intro x hx
    rcases List.mem_cons.mp hx with h5 | h5
    · subst h5; simp
    · exact List.mem_append_left _ (h3 x h5)
  · intro x hx
    rcases List.mem_append.mp hx with h5 | h5
    · exact List.mem_cons_of_mem _ (h4 x h5)
    · simp at h5; subst h5; exact List.mem_cons_self _ _
  · exact fun x hx => List.mem_cons_of_mem _ hx
  · exact fun x hx => List.mem_append_left _ hx

/-- Claim C9: every operation of the manager preserves the watched-set
invariant (each root watched at most once, with exactly one subscription
registered at the moment it is first added) and never removes a root from
the watched set or tears down a subscription: `listdir` and `digest_file`
preserve the invariant and only grow the watched set and subscription
log; `invalidate_root_cache`, event dispatch, frozen and live
`CacheFileManager.listdir` and `force_update_listdir_cache` never shrink
them either. -/
theorem watched_set_invariant_preserved {α : Type} (st : CacheState α)
    (stf : FileCacheState α) (root : RootArg)
    (impl_fn : String → Except String (List α))
    (g : String → String → Except String String) (fpath hash_algo hroot : String)
    (event : Event) (h : WatchInv st) (hf : WatchInv stf.toCacheState) :
    (WatchInv (CacheManager.listdir st root impl_fn).2.1
      ∧ st.watched ⊆ (CacheManager.listdir st root impl_fn).2.1.watched
      ∧ st.subscriptions ⊆ (CacheManager.listdir st root impl_fn).2.1.subscriptions)
    ∧ (WatchInv (CacheManager.digest_file st fpath hash_algo g).2.1
      ∧ st.watched ⊆ (CacheManager.digest_file st fpath hash_algo g).2.1.watched
      ∧ st.subscriptions ⊆ (CacheManager.digest_file st fpath hash_algo g).2.1.subscriptions)
    ∧ ((CacheManager.invalidate_root_cache st root).watched = st.watched
      ∧ (CacheManager.invalidate_root_cache st root).subscriptions = st.subscriptions)
    ∧ ((EventHandler.dispatch st hroot event).watched = st.watched
      ∧ (EventHandler.dispatch st hroot event).subscriptions = st.subscriptions)
    ∧ (WatchInv (CacheFileManager.listdir stf root impl_fn).2.1.toCacheState
      ∧ stf.watched ⊆ (CacheFileManager.listdir stf root impl_fn).2.1.watched
      ∧ stf.subscriptions ⊆ (CacheFileManager.listdir stf root impl_fn).2.1.subscriptions)
    ∧ ((CacheFileManager.force_update_listdir_cache stf root impl_fn).2.1.watched
        = stf.watched
      ∧ (CacheFileManager.force_update_listdir_cache stf root impl_fn).2.1.subscriptions
        = stf.subscriptions) := by
  refine ⟨?_, ?_, ⟨rfl, rfl⟩, ?_, ?_, ?_⟩
  · rcases listdir_watch_cases st root impl_fn with ⟨hw1, hs1⟩ | ⟨hr, hw1, hs1⟩
    · exact WatchInv_keep h hw1 hs1
    · exact WatchInv_extend h _ hr hw1 hs1
  · rcases digest_file_watch_cases st fpath hash_algo g with ⟨hw1, hs1⟩ | ⟨hr, hw1, hs1⟩
    · exact WatchInv_keep h hw1 hs1
    · exact WatchInv_extend h _ hr hw1 hs1
  · constructor <;> by_cases hd : event.is_directory <;>
      simp [EventHandler.dispatch, CacheManager.invalidate_root_cache, hd]
  · by_cases hu : stf.using_index_file = false
    · simp only [CacheFileManager.listdir, if_pos hu]
      rcases listdir_watch_cases stf.toCacheState root impl_fn with ⟨hw1, hs1⟩ | ⟨hr, hw1, hs1⟩
      · exact WatchInv_keep hf hw1 hs1
      · exact WatchInv_extend hf _ hr hw1 hs1
    · simp only [CacheFileManager.listdir, if_neg hu]
      exact ⟨hf, fun x hx => hx, fun x hx => hx⟩
  · rcases he : impl_fn root.toStr with e | l <;>
      simp [CacheFileManager.force_update_listdir_cache, he]

theorem watched_set_invariant_preserved_witness :
    WatchInv (CacheManager.listdir emptyW (RootArg.str "/repo")
        (fun _ => Except.ok [1])).2.1
    ∧ (CacheManager.invalidate_root_cache emptyW (RootArg.str "/repo")).watched
        = emptyW.watched := by
  have h := watched_set_invariant_preserved emptyW emptyFileW (RootArg.str "/repo")
      (fun _ => Except.ok [1]) (fun _ _ => Except.ok "d") "/r/f" "md5" "/r"
      { is_directory := false, event_type := "modified", src_path := "/r/f", dest_path := "" }
      (by simp [WatchInv, emptyW]) (by simp [WatchInv, emptyFileW])
  exact ⟨h.1.1, h.2.2.1.1⟩

/-- Claim C10 counterexample: after a failed `digest_file` lookup the
changed state is not limited to the watched set — for a previously-unseen
algorithm the digest cache has changed as well (it gained the empty inner
mapping created by `setdefault` before the producer ran). -/
theorem failed_digest_lookup_changes_digest_cache_counterexample :
    (CacheManager.digest_file emptyW "/data/b.whl" "md5"
        (fun _ _ => Except.error "crash")).1 = Except.error "crash"
    ∧ (CacheManager.digest_file emptyW "/data/b.whl" "md5"
        (fun _ _ => Except.error "crash")).2.1.digest_cache = [("md5", [])]
    ∧ (CacheManager.digest_file emptyW "/data/b.whl" "md5"
        (fun _ _ => Except.error "crash")).2.1.digest_cache ≠ emptyW.digest_cache := by
  refine ⟨rfl, rfl, by decide⟩

/-- Claim C10 (amended): on a cache miss for an unwatched root (resp. an
unwatched parent directory) the watch is registered before the producer
runs, so when the producer raises, the final state still has the root in
the watched set with its subscription registered and nothing cached: the
state differs from the initial one only in the watched set and
subscription log — except that `digest_file` for a previously-unseen
algorithm additionally retains the empty inner mapping `setdefault`
created for that algorithm. -/
theorem failed_lookup_registers_watch {α : Type} (st : CacheState α) (root : RootArg)
    (impl_fn : String → Except String (List α))
    (g : String → String → Except String String) (fpath hash_algo e1 e2 : String) :
    (dlookup (Key.pstr root.toStr) st.listdir_cache = none →
     root.toStr ∉ st.watched →
     impl_fn root.toStr = Except.error e1 →
     (CacheManager.listdir st root impl_fn).2.1 =
       { st with watched := setAdd root.toStr st.watched,
                 subscriptions := st.subscriptions ++ [root.toStr] })
    ∧ (dlookup fpath ((dlookup hash_algo st.digest_cache).getD []) = none →
       dirname fpath ∉ st.watched →
       g fpath hash_algo = Except.error e2 →
       (CacheManager.digest_file st fpath hash_algo g).2.1 =
         { st with
             digest_cache :=
               if (dlookup hash_algo st.digest_cache).isSome then st.digest_cache
               else dinsert hash_algo [] st.digest_cache,
             watched := setAdd (dirname fpath) st.watched,
             subscriptions := st.subscriptions ++ [dirname fpath] }) := by
  constructor
  · intro hmiss hw2 herr
    simp [CacheManager.listdir, hmiss, hw2, herr, CacheManager._watch]
  · intro hmiss hw2 herr
    by_cases hsome : (dlookup hash_algo st.digest_cache).isSome <;>
      simp [CacheManager.digest_file, hsome, hmiss, hw2, herr, CacheManager._watch]

theorem failed_lookup_registers_watch_witness :
    (CacheManager.listdir emptyW (RootArg.str "/w")
        (fun _ => Except.error "e1")).2.1 =
      { emptyW with watched := setAdd "/w" emptyW.watched,
                    subscriptions := emptyW.subscriptions ++ ["/w"] }
    ∧ (CacheManager.digest_file emptyW "/w/f.whl" "sha1"
        (fun _ _ => Except.error "e2")).2.1 =
      { emptyW with
          digest_cache :=
            if (dlookup "sha1" emptyW.digest_cache).isSome then emptyW.digest_cache
            else dinsert "sha1" [] emptyW.digest_cache,
          watched := setAdd (dirname "/w/f.whl") emptyW.watched,
          subscriptions := emptyW.subscriptions ++ [dirname "/w/f.whl"] } := by
  have h := failed_lookup_registers_watch emptyW (RootArg.str "/w")
      (fun _ => Except.error "e1") (fun _ _ => Except.error "e2") "/w/f.whl" "sha1" "e1" "e2"
  exact ⟨h.1 rfl (by decide) rfl, h.2 rfl (by decide) rfl⟩

/-- Claim C8: constructing a `CacheManager` fails fast with the
`RuntimeError` exactly when the filesystem-event source (watchdog) is
unavailable, and succeeds — with empty caches and an empty watched set —
exactly when it can be started. -/
theorem init_requires_event_source (α : Type) :
    CacheManager.init α false =
      Except.error "Please install the extra cache requirements by running pip install pypiserver[cache] to use the CachingFileBackend"
    ∧ CacheManager.init α true =
      Except.ok { listdir_cache := [], digest_cache := [], watched := [], subscriptions := [] } :=
  ⟨rfl, rfl⟩
